import Mathlib

/-!
Shallow embedding of the relocation core of the mold linker's ARM32 and
PPC64 back-ends (`elf/arch-arm32.cc` and the PPC64 ELFv2 back-end), together
with proofs about the relocation applier, the range-extension thunks, the
`.ARM.exidx` post-pass and the PPC64 `ha`/`lo` decomposition.

Machine integers are modelled as `Nat` (unsigned bit patterns) and `Int`
(signed values), with wrapping made explicit by `% 2 ^ w` / `Int.emod`.
-/

namespace Mold

/-- Modelled from the spec: the addressing primitives ("bit-field
extraction"); the helper `bit(val, pos)` of the common header (not part of
the excerpted sources) extracts bit `pos` of `val`. -/
def bit (x pos : Nat) : Nat := (x >>> pos) % 2

/-- Modelled from the spec: the addressing primitives ("bit-field
extraction"); the helper `bits(val, h, l)` of the common header extracts the
inclusive bit range `[h:l]` of `val`. -/
def bits (x h l : Nat) : Nat := (x >>> l) % 2 ^ (h - l + 1)

/-- Modelled from the spec: the addressing primitives ("sign extension");
`sign_extend(x, size)` of the common header reinterprets the low `size + 1`
bits of the u64 pattern `x` as a signed value (bit `size` is the sign bit). -/
def sign_extend (x : Nat) (size : Nat) : Int :=
  let m := x % 2 ^ (size + 1)
  if m < 2 ^ size then (m : Int) else (m : Int) - 2 ^ (size + 1)

/-- Truncation of a signed value to its u64 bit pattern (the C++ conversion
from `i64`-valued expressions to `u64`). -/
def toU64 (x : Int) : Nat := (x % (2 ^ 64)).toNat

/-- Truncation of a signed value to its u32 bit pattern (storing an
`i64`-valued expression through `ul32`). -/
def toU32 (x : Int) : Nat := (x % (2 ^ 32)).toNat

/-- Reinterpretation of a u64 bit pattern as a signed `i64` value. -/
def toI64 (x : Nat) : Int := sign_extend x 63

/-- Modelled from the spec: the addressing primitives ("alignment");
`align_to(val, align)` of the common header rounds `val` up to a multiple of
the power of two `align`, in u64 arithmetic: `(val + align - 1) & ~(align - 1)`. -/
def align_to (val align : Nat) : Nat :=
  if align = 0 then val else ((val + align - 1) % 2 ^ 64) &&& (2 ^ 64 - align)

/-- ARM and Thumb branch instructions can jump within plus or minus 16 MiB:
`is_jump_reachable(val)` is `sign_extend(val, 24) == val` for the `i64`
displacement `val`. -/
def is_jump_reachable (val : Int) : Bool := sign_extend (toU64 val) 24 == val

/-- Embedding of `write_thm_b_imm(loc, val)`: splits the 25-bit displacement
`val` into sign, I1, I2, imm10, imm11, computes J1/J2, and merges them into
the two half-words at `loc`, preserving the masked-out opcode bits. -/
def write_thm_b_imm (hw0 hw1 val : Nat) : Nat × Nat :=
  let sign := bit val 24
  let I1 := bit val 23
  let I2 := bit val 22
  let J1 := (1 - I1) ^^^ sign
  let J2 := (1 - I2) ^^^ sign
  let imm10 := bits val 21 12
  let imm11 := bits val 11 1
  ((hw0 &&& 0xf800) ||| (sign <<< 10) ||| imm10,
   (hw1 &&& 0xd000) ||| (J1 <<< 13) ||| (J2 <<< 11) ||| imm11)

/-- Result of applying an `R_ARM_THM_CALL` relocation: the two little-endian
half-words finally stored at `loc` and `loc + 2`, plus whether the branch was
routed through a range-extension thunk. -/
structure ThmHalves where
  hw0 : Nat
  hw1 : Nat
  usedThunk : Bool
deriving DecidableEq

/-- Embedding of the `R_ARM_THM_CALL` case of
`InputSection<ARM32>::apply_reloc_alloc`. `hw0`/`hw1` are the half-words at
the relocated site, `undefWeak` is `sym.is_remaining_undef_weak()`, `S`/`A`/`P`
as in the source, and `armThunkAddr` is the value of `get_arm_thunk_addr()`. -/
def apply_thm_call (hw0 hw1 : Nat) (undefWeak : Bool) (S P : Nat) (A : Int)
    (armThunkAddr : Nat) : ThmHalves :=
  if undefWeak then
    ⟨0xf3af, 0x8000, false⟩
  else
    let val : Int := toI64 (toU64 ((S : Int) + A - (P : Int)))
    if is_jump_reachable val then
      if S % 2 = 1 then
        let p := write_thm_b_imm hw0 hw1 (toU32 val)
        ⟨p.1, p.2 ||| 0x1000, false⟩
      else
        let p := write_thm_b_imm hw0 hw1 (align_to (toU64 val) 4 % 2 ^ 32)
        ⟨p.1, p.2 &&& 0xefff, false⟩
    else
      let p := write_thm_b_imm hw0 hw1
        (align_to (toU64 ((armThunkAddr : Int) + A - (P : Int))) 4 % 2 ^ 32)
      ⟨p.1, p.2 &&& 0xefff, true⟩

/-- Write performed by an ARM32 relocation case: a 32-bit word, a pair of
16-bit half-words, or a fatal diagnostic raised before anything is written. -/
inductive ArmWrite where
  | word (v : Nat)
  | halves (hw0 hw1 : Nat)
  | fatal
deriving DecidableEq

/-- Result of one ARM32 `apply_reloc_alloc` case: the write it performs and
whether it consulted the range-extension thunk. -/
structure ArmApply where
  w : ArmWrite
  usedThunk : Bool
deriving DecidableEq

/-- Embedding of the `R_ARM_CALL` case of
`InputSection<ARM32>::apply_reloc_alloc`: checks that the site holds BL or
BLX (fatal otherwise), rewrites weak-undefined calls to the ARM NOP, and
otherwise encodes the displacement as BL or BLX, routing through the thunk
when out of reach. -/
def apply_arm_call (insn : Nat) (undefWeak : Bool) (S P : Nat) (A : Int)
    (armThunkAddr : Nat) : ArmApply :=
  let is_bl := insn &&& 0xff000000 == 0xeb000000
  let is_blx := insn &&& 0xfe000000 == 0xfa000000
  if !is_bl && !is_blx then
    ⟨.fatal, false⟩
  else if undefWeak then
    ⟨.word 0xe320f000, false⟩
  else
    let val : Nat := toU64 ((S : Int) + A - (P : Int))
    if is_jump_reachable (toI64 val) then
      if S % 2 = 1 then
        ⟨.word (0xfa000000 ||| (bit val 1 <<< 24) ||| bits val 25 2), false⟩
      else
        ⟨.word (0xeb000000 ||| bits val 25 2), false⟩
    else
      ⟨.word (0xeb000000 |||
        bits (toU64 ((armThunkAddr : Int) + A - (P : Int))) 25 2), true⟩

/-- Embedding of the `R_ARM_JUMP24` case of
`InputSection<ARM32>::apply_reloc_alloc`: weak-undefined jumps become the
ARM NOP; a jump that is unreachable or needs a mode switch is routed through
the ARM entry of the thunk; the top byte of the instruction is preserved. -/
def apply_arm_jump24 (insn : Nat) (undefWeak : Bool) (S P : Nat) (A : Int)
    (armThunkAddr : Nat) : ArmApply :=
  if undefWeak then
    ⟨.word 0xe320f000, false⟩
  else
    let val : Nat := toU64 ((S : Int) + A - (P : Int))
    if !(is_jump_reachable (toI64 val)) || S % 2 == 1 then
      ⟨.word ((insn &&& 0xff000000) |||
        bits (toU64 ((armThunkAddr : Int) + A - (P : Int))) 25 2), true⟩
    else
      ⟨.word ((insn &&& 0xff000000) ||| bits val 25 2), false⟩

/-- Embedding of the `R_ARM_THM_JUMP24` case of
`InputSection<ARM32>::apply_reloc_alloc`: weak-undefined jumps become the
Thumb wide NOP; a jump that is unreachable or needs a mode switch is routed
through the Thumb entry of the thunk. -/
def apply_thm_jump24 (hw0 hw1 : Nat) (undefWeak : Bool) (S P : Nat) (A : Int)
    (thumbThunkAddr : Nat) : ArmApply :=
  if undefWeak then
    ⟨.halves 0xf3af 0x8000, false⟩
  else
    let val : Nat := toU64 ((S : Int) + A - (P : Int))
    if !(is_jump_reachable (toI64 val)) || !(S % 2 == 1) then
      let p := write_thm_b_imm hw0 hw1
        (toU64 ((thumbThunkAddr : Int) + A - (P : Int)) % 2 ^ 32)
      ⟨.halves p.1 p.2, true⟩
    else
      let p := write_thm_b_imm hw0 hw1 (val % 2 ^ 32)
      ⟨.halves p.1 p.2, false⟩

/-- Fixed bytes of one ARM32 range-extension thunk slot (`entry` in
`RangeExtensionThunk<ARM32>::copy_buf`): Thumb entry at offset 0
(`mov ip, pc; bx ip`), ARM entry at offset 4 (`ldr ip, 2f; add ip, ip, pc;
bx ip`), and a 4-byte literal at offset 16, initially zero. -/
def arm32_thunk_entry_bytes : List Nat :=
  [0xfc, 0x46,
   0x60, 0x47,
   0x04, 0xc0, 0x9f, 0xe5,
   0x0f, 0xc0, 0x8c, 0xe0,
   0x1c, 0xff, 0x2f, 0xe1,
   0x00, 0x00, 0x00, 0x00]

/-- Little-endian byte image of a u32 value (an `ul32` store). -/
def le32_bytes (v : Nat) : List Nat :=
  [v % 2 ^ 8, v / 2 ^ 8 % 2 ^ 8, v / 2 ^ 16 % 2 ^ 8, v / 2 ^ 24 % 2 ^ 8]

/-- Address `P` of slot `i` of an ARM32 range-extension thunk, as computed in
`RangeExtensionThunk<ARM32>::copy_buf`: `output_section.shdr.sh_addr + offset
+ sizeof(hdr) + i * sizeof(entry)`, with `sizeof(hdr) = 12` and
`sizeof(entry) = 20`, in u64 arithmetic. -/
def arm32_thunk_slot_P (sectionAddr offset i : Nat) : Nat :=
  (sectionAddr + offset + 12 + i * 20) % 2 ^ 64

/-- Literal word stored at offset 16 of slot `i`:
`*(ul32 *)(loc + 16) = S - P - 16` where `S = symbols[i]->get_addr(ctx)`. -/
def arm32_thunk_literal (sectionAddr offset i S : Nat) : Nat :=
  toU32 ((S : Int) - (arm32_thunk_slot_P sectionAddr offset i : Int) - 16)

/-- Byte image of slot `i` of an ARM32 range-extension thunk after
`RangeExtensionThunk<ARM32>::copy_buf`: the fixed `entry` bytes with the
literal at offset 16 overwritten. -/
def arm32_thunk_slot (sectionAddr offset i S : Nat) : List Nat :=
  arm32_thunk_entry_bytes.take 16 ++
    le32_bytes (arm32_thunk_literal sectionAddr offset i S)

/-! ### The `.ARM.exidx` post-pass (`sort_arm_exidx`) -/

/-- CANTUNWIND marker value of `.ARM.exidx` records. -/
def EXIDX_CANTUNWIND : Nat := 1

/-- Embedding of `is_relative` in `sort_arm_exidx`: a value holds a relative
pointer iff it is not `EXIDX_CANTUNWIND` and its MSB is clear. -/
def exidx_is_relative (v : Nat) : Bool :=
  v != EXIDX_CANTUNWIND && v &&& 0x80000000 == 0

/-- Result of masking an `i64` value with `0x7fffffff` (two's complement):
the low 31 bits as a nonnegative number. -/
def maskLow31 (x : Int) : Nat := (x % (2 ^ 31)).toNat

/-- Phase (i) of `sort_arm_exidx` on one entry at byte offset `off`:
`addr` becomes `sign_extend(addr, 30) + offset` (stored through `ul32`), and
a relative `val` becomes `0x7fffffff & (val + offset)`. -/
def exidx_translate (off : Nat) (e : Nat × Nat) : Nat × Nat :=
  (toU32 (sign_extend e.1 30 + (off : Int)),
   if exidx_is_relative e.2 then maskLow31 ((e.2 : Int) + (off : Int)) else e.2)

/-- Phase (iii) of `sort_arm_exidx` on one entry at byte offset `off`:
`addr` becomes `0x7fffffff & (addr - offset)`, and a relative `val` becomes
`0x7fffffff & (val - offset)`. -/
def exidx_untranslate (off : Nat) (e : Nat × Nat) : Nat × Nat :=
  (maskLow31 ((e.1 : Int) - (off : Int)),
   if exidx_is_relative e.2 then maskLow31 ((e.2 : Int) - (off : Int)) else e.2)

/-- Applies a per-entry transformation to each 8-byte entry, passing each
entry its byte offset `sizeof(Entry) * i = 8 * i` (the `parallel_for` loops
of `sort_arm_exidx`). -/
def exidx_map (f : Nat → Nat × Nat → Nat × Nat) : Nat → List (Nat × Nat) → List (Nat × Nat)
  | _, [] => []
  | off, e :: es => f off e :: exidx_map f (off + 8) es

/-- Comparator of the sort in `sort_arm_exidx` (sorting by `addr`; the model
uses the reflexive closure of the source's strict `a.addr < b.addr`). -/
def entryLE (a b : Nat × Nat) : Prop := a.1 ≤ b.1

instance : DecidableRel entryLE := fun a b => Nat.decLe a.1 b.1

instance : IsTotal (Nat × Nat) entryLE := ⟨fun a b => Nat.le_total a.1 b.1⟩

instance : IsTrans (Nat × Nat) entryLE := ⟨fun _ _ _ h h' => Nat.le_trans h h'⟩

/-- Embedding of `sort_arm_exidx` on the list of 8-byte `(addr, val)`
entries: translate to section-relative form, sort by `addr`, translate back
to self-relative form. -/
def sort_arm_exidx (l : List (Nat × Nat)) : List (Nat × Nat) :=
  exidx_map exidx_untranslate 0
    (List.insertionSort entryLE (exidx_map exidx_translate 0 l))

/-- Reinterpretation of an output entry as a section-relative address: the
self-relative 31-bit field sign-extended plus the entry's byte offset. -/
def exidx_reinterp (off : Nat) (e : Nat × Nat) : Int :=
  sign_extend e.1 30 + (off : Int)

/-! ### PPC64 back-end -/

/-- Embedding of the PPC64 helper `lo(x) = x & 0xffff`. -/
def lo (x : Nat) : Nat := x &&& 0xffff

/-- Embedding of the PPC64 helper `hi(x) = x >> 16`. -/
def hi (x : Nat) : Nat := x >>> 16

/-- Embedding of the PPC64 helper `ha(x) = (x + 0x8000) >> 16` in u64
arithmetic. -/
def ha (x : Nat) : Nat := ((x + 0x8000) % 2 ^ 64) >>> 16

/-- Result of applying an `R_PPC64_REL24` relocation: the patched branch
word, the word following the relocation site after the pass, the `i64`
displacement finally encoded, whether the branch was routed through a thunk,
and whether the range check raised an `Error` diagnostic. -/
structure Rel24 where
  word : Nat
  next : Nat
  valUsed : Int
  usedThunk : Bool
  rangeErr : Bool
deriving DecidableEq

/-- Embedding of the `R_PPC64_REL24` case of
`InputSection<PPC64V2>::apply_reloc_alloc`. `insn` is the branch word at the
site and `next` the 32-bit word following it; `localEntry` is
`get_local_entry_offset(ctx, sym)` and `thunkAddr` the thunk slot address
`output_section->thunks[ref.thunk_idx]->get_addr(ref.sym_idx)`. -/
def ppc64_rel24 (insn next : Nat) (hasPlt : Bool) (S P thunkAddr : Nat)
    (A : Int) (localEntry : Nat) : Rel24 :=
  let val0 : Int := toI64 (toU64 ((S : Int) + A - (P : Int) + (localEntry : Int)))
  let thunked := hasPlt || !(sign_extend (toU64 val0) 25 == val0)
  let val : Int :=
    if thunked then toI64 (toU64 ((thunkAddr : Int) + A - (P : Int))) else val0
  let rangeErr := decide (val < -(2 ^ 25) ∨ (2 ^ 25 : Int) ≤ val)
  ⟨insn ||| (bits (toU64 val) 25 2 <<< 2),
   if hasPlt && next == 0x60000000 then 0xe8410018 else next,
   val, thunked, rangeErr⟩

/-! ### Relocation kinds and diagnostic classification -/

/-- Diagnostic outcome of one relocation in a scan/apply switch: handled
normally, skipped, reported through `Error` (records the diagnostic, the
phase continues), or reported through `Fatal` (aborts the link). -/
inductive Diag where
  | ok
  | skip
  | err
  | fatal
deriving DecidableEq

/-- ARM32 relocation kinds appearing in `arch-arm32.cc`, plus `unknown n`
standing for any other relocation type value `n`. -/
inductive ArmRel where
  | rnone
  | v4bx
  | abs32
  | target1
  | rel32
  | thm_call
  | base_prel
  | got_prel
  | target2
  | got_brel
  | call
  | jump24
  | thm_jump11
  | thm_jump19
  | thm_jump24
  | movw_prel_nc
  | movw_abs_nc
  | thm_movw_prel_nc
  | prel31
  | thm_movw_abs_nc
  | movt_prel
  | thm_movt_prel
  | movt_abs
  | thm_movt_abs
  | tls_gd32
  | tls_ldm32
  | tls_ldo32
  | tls_ie32
  | tls_le32
  | tls_gotdesc
  | tls_call
  | thm_tls_call
  | unknown (n : Nat)
deriving DecidableEq

/-- PPC64 relocation kinds appearing in the PPC64 back-end, plus `unknown n`
standing for any other relocation type value `n`. -/
inductive PpcRel where
  | rnone
  | addr64
  | addr32
  | toc16_ha
  | toc16_lo
  | toc16_ds
  | toc16_lo_ds
  | rel24
  | rel64
  | rel16_ha
  | rel16_lo
  | plt16_ha
  | plt16_hi
  | plt16_lo
  | plt16_lo_ds
  | got_tprel16_ha
  | got_tprel16_lo_ds
  | got_tlsgd16_ha
  | got_tlsgd16_lo
  | got_tlsld16_ha
  | got_tlsld16_lo
  | dtprel16_ha
  | dtprel16_lo
  | tprel16_ha
  | tprel16_lo
  | pltseq
  | pltcall
  | tls
  | tlsgd
  | tlsld
  | dtprel64
  | unknown (n : Nat)
deriving DecidableEq

/-- Diagnostic raised by `InputSection<ARM32>::scan_relocations` per
relocation kind: `R_NONE` is skipped, every kind with a case is handled, and
the `default` arm raises `Error`. -/
def arm32_scan_diag : ArmRel → Diag
  | .rnone => .skip
  | .unknown _ => .err
  | _ => .ok

/-- Diagnostic raised by `InputSection<ARM32>::apply_reloc_alloc` per
relocation kind: `R_NONE` and `R_ARM_V4BX` are skipped before the switch,
every kind with a case is handled, and the `default` arm raises `Error`. -/
def arm32_apply_diag : ArmRel → Diag
  | .rnone => .skip
  | .v4bx => .skip
  | .unknown _ => .err
  | _ => .ok

/-- Diagnostic raised by `InputSection<PPC64V2>::scan_relocations` per
relocation kind: `R_NONE` is skipped, the kinds with cases are handled, and
the `default` arm (including the nonalloc-only kinds `R_PPC64_ADDR32` and
`R_PPC64_DTPREL64`) raises `Fatal`. -/
def ppc64_scan_diag : PpcRel → Diag
  | .rnone => .skip
  | .addr32 => .fatal
  | .dtprel64 => .fatal
  | .unknown _ => .fatal
  | _ => .ok

/-- Diagnostic raised by `InputSection<PPC64V2>::apply_reloc_alloc` per
relocation kind: `R_NONE` is skipped, the kinds with cases are handled, and
the `default` arm raises `Fatal`. -/
def ppc64_apply_diag : PpcRel → Diag
  | .rnone => .skip
  | .addr32 => .fatal
  | .dtprel64 => .fatal
  | .unknown _ => .fatal
  | _ => .ok

/-! ### Non-allocated section appliers -/

/-- Write performed by one relocation of `apply_reloc_nonalloc`: skipped, a
32-bit store, a 64-bit store, or a fatal diagnostic. -/
inductive NonallocRes where
  | skip
  | w32 (v : Nat)
  | w64 (v : Nat)
  | fatal
deriving DecidableEq

/-- Embedding of `InputSection<ARM32>::apply_reloc_nonalloc` on one
relocation: only `R_ARM_ABS32` and `R_ARM_TLS_LDO32` are accepted (after the
`R_NONE` skip); `tomb` is `get_tombstone(sym, frag)`. -/
def arm32_apply_nonalloc (r : ArmRel) (tomb : Option Nat) (S tlsBegin : Nat)
    (A : Int) : NonallocRes :=
  match r with
  | .rnone => .skip
  | .abs32 =>
    match tomb with
    | some v => .w32 (v % 2 ^ 32)
    | none => .w32 (toU64 ((S : Int) + A) % 2 ^ 32)
  | .tls_ldo32 =>
    match tomb with
    | some v => .w32 (v % 2 ^ 32)
    | none => .w32 (toU64 ((S : Int) + A - (tlsBegin : Int)) % 2 ^ 32)
  | _ => .fatal

/-- Embedding of `InputSection<PPC64V2>::apply_reloc_nonalloc` on one
relocation: only `R_PPC64_ADDR64`, `R_PPC64_ADDR32` and `R_PPC64_DTPREL64`
are accepted (after the `R_NONE` skip). The second component records whether
the `check(val, 0, 1 << 32)` of the `ADDR32` case raised an `Error`.
`dtvOffset` is the constant `E::tls_dtv_offset`. -/
def ppc64_apply_nonalloc (r : PpcRel) (tomb : Option Nat)
    (S tlsBegin dtvOffset : Nat) (A : Int) : NonallocRes × Bool :=
  match r with
  | .rnone => (.skip, false)
  | .addr64 =>
    match tomb with
    | some v => (.w64 (v % 2 ^ 64), false)
    | none => (.w64 (toU64 ((S : Int) + A)), false)
  | .addr32 =>
    let val : Int := toI64 (toU64 ((S : Int) + A))
    (.w32 (toU32 val), decide (val < 0 ∨ (2 ^ 32 : Int) ≤ val))
  | .dtprel64 =>
    (.w64 (toU64 ((S : Int) + A - (tlsBegin : Int) - (dtvOffset : Int))), false)
  | _ => (.fatal, false)

/-! ### Helper lemmas -/

theorem bit_lt_two (x i : Nat) : bit x i < 2 :=
  Nat.mod_lt _ (by norm_num)

theorem bits_lt (x h l : Nat) : bits x h l < 2 ^ (h - l + 1) :=
  Nat.mod_lt _ (Nat.pos_pow_of_pos _ (by norm_num))

theorem bit_eq_ite (x i : Nat) : bit x i = if x.testBit i then 1 else 0 := by
  unfold bit
  rw [Nat.testBit_to_div_mod, Nat.shiftRight_eq_div_pow]
  rcases Nat.mod_two_eq_zero_or_one (x / 2 ^ i) with h | h <;> simp [h]

theorem tb_of_mod_eq_zero {m n j : Nat} (h : m % 2 ^ n = 0) (hj : j < n) :
    m.testBit j = false := by
  have h2 := Nat.testBit_mod_two_pow m n j
  rw [h] at h2
  simp [Nat.zero_testBit, hj] at h2
  exact h2

theorem tb_or_of_right_false {x m j : Nat} (hm : m.testBit j = false) :
    (x ||| m).testBit j = x.testBit j := by
  simp [Nat.testBit_or, hm]

theorem tb_or_of_right_true {x m j : Nat} (hm : m.testBit j = true) :
    (x ||| m).testBit j = true := by
  simp [Nat.testBit_or, hm]

theorem tb_and_of_right_true {x m j : Nat} (hm : m.testBit j = true) :
    (x &&& m).testBit j = x.testBit j := by
  simp [Nat.testBit_and, hm]

theorem tb_and_of_right_false {x m j : Nat} (hm : m.testBit j = false) :
    (x &&& m).testBit j = false := by
  simp [Nat.testBit_and, hm]

theorem mod_pow_or_of_high {x m n : Nat} (hm : m % 2 ^ n = 0) :
    (x ||| m) % 2 ^ n = x % 2 ^ n := by
  apply Nat.eq_of_testBit_eq
  intro j
  rcases Nat.lt_or_ge j n with hj | hj
  · simp [Nat.testBit_mod_two_pow, hj, Nat.testBit_or, tb_of_mod_eq_zero hm hj]
  · simp [Nat.testBit_mod_two_pow, Nat.not_lt.mpr hj]

theorem mod_pow_and_of_low {x m n : Nat} (hm : ∀ j, j < n → m.testBit j = true) :
    (x &&& m) % 2 ^ n = x % 2 ^ n := by
  apply Nat.eq_of_testBit_eq
  intro j
  rcases Nat.lt_or_ge j n with hj | hj
  · simp [Nat.testBit_mod_two_pow, hj, Nat.testBit_and, hm j hj]
  · simp [Nat.testBit_mod_two_pow, Nat.not_lt.mpr hj]

theorem xor_lt_two {a b : Nat} (ha : a < 2) (hb : b < 2) : a ^^^ b < 2 := by
  interval_cases a <;> interval_cases b <;> decide

theorem and_mask_mod_eq_zero {x m n : Nat} (hm : m % 2 ^ n = 0) :
    (x &&& m) % 2 ^ n = 0 := by
  apply Nat.eq_of_testBit_eq
  intro j
  rcases Nat.lt_or_ge j n with hj | hj
  · simp [Nat.testBit_mod_two_pow, hj, Nat.testBit_and, tb_of_mod_eq_zero hm hj]
  · simp [Nat.testBit_mod_two_pow, Nat.not_lt.mpr hj]

theorem shiftLeft_mod_eq_zero {x k n : Nat} (h : n ≤ k) :
    (x <<< k) % 2 ^ n = 0 := by
  rw [Nat.shiftLeft_eq]
  have h2 : x * 2 ^ k = x * 2 ^ (k - n) * 2 ^ n := by
    rw [Nat.mul_assoc, ← Nat.pow_add]
    congr 2
    omega
  rw [h2, Nat.mul_mod_left]

theorem or_low_mod {a b n : Nat} (ha : a % 2 ^ n = 0) (hb : b < 2 ^ n) :
    (a ||| b) % 2 ^ n = b := by
  rw [Nat.or_comm, mod_pow_or_of_high ha, Nat.mod_eq_of_lt hb]

theorem bit_testBit_zero (x i : Nat) : (bit x i).testBit 0 = x.testBit i := by
  rw [bit_eq_ite]
  cases h : x.testBit i <;> decide

theorem j_bit_testBit_zero (x i k : Nat) :
    ((1 - bit x i) ^^^ bit x k).testBit 0 = (x.testBit i == x.testBit k) := by
  rw [bit_eq_ite, bit_eq_ite]
  cases h1 : x.testBit i <;> cases h2 : x.testBit k <;> decide

/-- Field-level specification of `write_thm_b_imm`: the five high bits of
the first half-word and bits 15, 14, 12 of the second are preserved, and the
sign / imm10 / J1 / J2 / imm11 fields encode the displacement `d` as in the
ARM manual. -/
theorem wtb_spec (hw0 hw1 d : Nat) :
    (write_thm_b_imm hw0 hw1 d).1.testBit 15 = hw0.testBit 15
    ∧ (write_thm_b_imm hw0 hw1 d).1.testBit 14 = hw0.testBit 14
    ∧ (write_thm_b_imm hw0 hw1 d).1.testBit 13 = hw0.testBit 13
    ∧ (write_thm_b_imm hw0 hw1 d).1.testBit 12 = hw0.testBit 12
    ∧ (write_thm_b_imm hw0 hw1 d).1.testBit 11 = hw0.testBit 11
    ∧ (write_thm_b_imm hw0 hw1 d).1.testBit 10 = d.testBit 24
    ∧ bits (write_thm_b_imm hw0 hw1 d).1 9 0 = bits d 21 12
    ∧ (write_thm_b_imm hw0 hw1 d).2.testBit 15 = hw1.testBit 15
    ∧ (write_thm_b_imm hw0 hw1 d).2.testBit 14 = hw1.testBit 14
    ∧ (write_thm_b_imm hw0 hw1 d).2.testBit 12 = hw1.testBit 12
    ∧ (write_thm_b_imm hw0 hw1 d).2.testBit 13 = (d.testBit 23 == d.testBit 24)
    ∧ (write_thm_b_imm hw0 hw1 d).2.testBit 11 = (d.testBit 22 == d.testBit 24)
    ∧ bits (write_thm_b_imm hw0 hw1 d).2 10 0 = bits d 11 1 := by
  have hsign : bit d 24 < 2 := bit_lt_two d 24
  have hI1 : bit d 23 < 2 := bit_lt_two d 23
  have hI2 : bit d 22 < 2 := bit_lt_two d 22
  have hJ1 : (1 - bit d 23) ^^^ bit d 24 < 2 := xor_lt_two (by omega) hsign
  have hJ2 : (1 - bit d 22) ^^^ bit d 24 < 2 := xor_lt_two (by omega) hsign
  have himm10 : bits d 21 12 < 2 ^ 10 := bits_lt d 21 12
  have himm11 : bits d 11 1 < 2 ^ 11 := bits_lt d 11 1
  have hss : (bit d 24) <<< 10 < 2 ^ 11 := by
    rw [Nat.shiftLeft_eq]
    omega
  have hJ1s : ((1 - bit d 23) ^^^ bit d 24) <<< 13 < 2 ^ 14 := by
    rw [Nat.shiftLeft_eq]
    omega
  have hJ2s : ((1 - bit d 22) ^^^ bit d 24) <<< 11 < 2 ^ 12 := by
    rw [Nat.shiftLeft_eq]
    omega
  simp only [write_thm_b_imm]
  refine ⟨?_, ?_, ?_, ?_, ?_, ?_, ?_, ?_, ?_, ?_, ?_, ?_, ?_⟩
  · rw [tb_or_of_right_false (Nat.testBit_lt_two_pow (by omega)),
        tb_or_of_right_false (Nat.testBit_lt_two_pow (by omega)),
        tb_and_of_right_true (by decide)]
  · rw [tb_or_of_right_false (Nat.testBit_lt_two_pow (by omega)),
        tb_or_of_right_false (Nat.testBit_lt_two_pow (by omega)),
        tb_and_of_right_true (by decide)]
  · rw [tb_or_of_right_false (Nat.testBit_lt_two_pow (by omega)),
        tb_or_of_right_false (Nat.testBit_lt_two_pow (by omega)),
        tb_and_of_right_true (by decide)]
  · rw [tb_or_of_right_false (Nat.testBit_lt_two_pow (by omega)),
        tb_or_of_right_false (Nat.testBit_lt_two_pow (by omega)),
        tb_and_of_right_true (by decide)]
  · rw [tb_or_of_right_false (Nat.testBit_lt_two_pow (by omega)),
        tb_or_of_right_false (Nat.testBit_lt_two_pow (by omega)),
        tb_and_of_right_true (by decide)]
  · rw [tb_or_of_right_false (Nat.testBit_lt_two_pow himm10), Nat.testBit_or,
        tb_and_of_right_false (by decide), Nat.testBit_shiftLeft]
    simpa using bit_testBit_zero d 24
  · rw [show bits ((hw0 &&& 0xf800) ||| ((bit d 24) <<< 10) ||| bits d 21 12) 9 0
        = ((hw0 &&& 0xf800) ||| ((bit d 24) <<< 10) ||| bits d 21 12) % 2 ^ 10 by
          simp [bits]]
    rw [or_low_mod ?_ himm10]
    rw [mod_pow_or_of_high (shiftLeft_mod_eq_zero (by omega)),
        and_mask_mod_eq_zero (by decide)]
  · rw [tb_or_of_right_false (Nat.testBit_lt_two_pow (by omega)),
        tb_or_of_right_false (Nat.testBit_lt_two_pow (by omega)),
        tb_or_of_right_false (Nat.testBit_lt_two_pow (by omega)),
        tb_and_of_right_true (by decide)]
  · rw [tb_or_of_right_false (Nat.testBit_lt_two_pow (by omega)),
        tb_or_of_right_false (Nat.testBit_lt_two_pow (by omega)),
        tb_or_of_right_false (Nat.testBit_lt_two_pow (by omega)),
        tb_and_of_right_true (by decide)]
  · rw [tb_or_of_right_false (Nat.testBit_lt_two_pow (by omega)),
        tb_or_of_right_false (Nat.testBit_lt_two_pow hJ2s),
        tb_or_of_right_false (by rw [Nat.testBit_shiftLeft]; rfl),
        tb_and_of_right_true (by decide)]
  · rw [tb_or_of_right_false (Nat.testBit_lt_two_pow (by omega)),
        tb_or_of_right_false (Nat.testBit_lt_two_pow (by omega)),
        Nat.testBit_or, tb_and_of_right_false (by decide), Nat.testBit_shiftLeft]
    simpa using j_bit_testBit_zero d 23 24
  · rw [tb_or_of_right_false (Nat.testBit_lt_two_pow himm11),
        Nat.testBit_or,
        tb_or_of_right_false (by rw [Nat.testBit_shiftLeft]; rfl),
        tb_and_of_right_false (by decide),
        Nat.testBit_shiftLeft]
    simpa using j_bit_testBit_zero d 22 24
  · rw [show bits ((hw1 &&& 0xd000) ||| (((1 - bit d 23) ^^^ bit d 24) <<< 13)
          ||| (((1 - bit d 22) ^^^ bit d 24) <<< 11) ||| bits d 11 1) 10 0
        = ((hw1 &&& 0xd000) ||| (((1 - bit d 23) ^^^ bit d 24) <<< 13)
          ||| (((1 - bit d 22) ^^^ bit d 24) <<< 11) ||| bits d 11 1) % 2 ^ 11 by
          simp [bits]]
    rw [or_low_mod ?_ himm11]
    rw [mod_pow_or_of_high (shiftLeft_mod_eq_zero (by omega)),
        mod_pow_or_of_high (shiftLeft_mod_eq_zero (by omega)),
        and_mask_mod_eq_zero (by decide)]

theorem bits_or_high_10 {x m : Nat} (hm : m % 2 ^ 11 = 0) :
    bits (x ||| m) 10 0 = bits x 10 0 := by
  simp only [bits, Nat.shiftRight_zero]
  norm_num
  exact mod_pow_or_of_high hm

theorem bits_and_low_10 {x m : Nat} (hm : ∀ j, j < 11 → m.testBit j = true) :
    bits (x &&& m) 10 0 = bits x 10 0 := by
  simp only [bits, Nat.shiftRight_zero]
  norm_num
  exact mod_pow_and_of_low hm

theorem exidx_map_length (f : Nat → Nat × Nat → Nat × Nat) :
    ∀ (off : Nat) (l : List (Nat × Nat)), (exidx_map f off l).length = l.length := by
  intro off l
  induction l generalizing off with
  | nil => rfl
  | cons e es ih => simp [exidx_map, ih]

theorem exidx_map_get (f : Nat → Nat × Nat → Nat × Nat) (l : List (Nat × Nat)) :
    ∀ (off i : Nat) (h1 : i < (exidx_map f off l).length) (h2 : i < l.length),
      (exidx_map f off l).get ⟨i, h1⟩ = f (off + 8 * i) (l.get ⟨i, h2⟩) := by
  induction l with
  | nil => intro off i h1 h2; simp at h2
  | cons e es ih =>
    intro off i h1 h2
    cases i with
    | zero => simp [exidx_map]
    | succ k =>
      have hk : k < (exidx_map f (off + 8) es).length := by
        rw [exidx_map_length]
        simpa using h2
      have hk2 : k < es.length := by simpa using h2
      show (exidx_map f (off + 8) es).get ⟨k, hk⟩ = _
      rw [ih (off + 8) k hk hk2]
      congr 1
      ring

theorem maskLow31_lt (x : Int) : maskLow31 x < 2 ^ 31 := by
  unfold maskLow31
  omega

theorem exidx_untranslate_mem_addr_lt (l : List (Nat × Nat)) :
    ∀ (off : Nat), ∀ e ∈ exidx_map exidx_untranslate off l, e.1 < 2 ^ 31 := by
  induction l with
  | nil => intro off e he; simp [exidx_map] at he
  | cons x xs ih =>
    intro off e he
    rcases List.mem_cons.mp he with rfl | he2
    · exact maskLow31_lt _
    · exact ih _ e he2

theorem exidx_untranslate_reinterp (k : Nat) (e : Nat × Nat)
    (h1 : e.1 < 2 ^ 30) (h2 : 8 * k ≤ 2 ^ 30) :
    exidx_reinterp (8 * k) (exidx_untranslate (8 * k) e) = (e.1 : Int) := by
  unfold exidx_reinterp exidx_untranslate maskLow31 sign_extend
  simp only
  split <;> push_cast <;> omega

/-! ### Claim theorems -/

/-- Claim C1: for an `R_ARM_THM_CALL` relocation whose symbol is not
remaining-undefined-weak and whose displacement `val = S + A - P` is
jump-reachable: if the target's LSB is 1 (Thumb) the patched instruction is
BL (bit `0x1000` of the second half-word set) with displacement `val`, and
if it is 0 it is BLX (that bit cleared) with displacement
`align_to(val, 4)`; the sign/imm10 and J1/J2/imm11 fields encode that
displacement, all bits outside those fields and the BL/BLX bit are
preserved, and no thunk is consulted. -/
theorem c1_thm_call_encoding (hw0 hw1 S P : Nat) (A : Int) (armTh : Nat)
    (hreach : is_jump_reachable (toI64 (toU64 ((S : Int) + A - (P : Int)))) = true) :
    let r := apply_thm_call hw0 hw1 false S P A armTh
    let val := toI64 (toU64 ((S : Int) + A - (P : Int)))
    let d := if S % 2 = 1 then toU32 val else align_to (toU64 val) 4 % 2 ^ 32
    r.hw1.testBit 12 = decide (S % 2 = 1)
    ∧ r.hw0.testBit 15 = hw0.testBit 15
    ∧ r.hw0.testBit 14 = hw0.testBit 14
    ∧ r.hw0.testBit 13 = hw0.testBit 13
    ∧ r.hw0.testBit 12 = hw0.testBit 12
    ∧ r.hw0.testBit 11 = hw0.testBit 11
    ∧ r.hw1.testBit 15 = hw1.testBit 15
    ∧ r.hw1.testBit 14 = hw1.testBit 14
    ∧ r.hw0.testBit 10 = d.testBit 24
    ∧ bits r.hw0 9 0 = bits d 21 12
    ∧ r.hw1.testBit 13 = (d.testBit 23 == d.testBit 24)
    ∧ r.hw1.testBit 11 = (d.testBit 22 == d.testBit 24)
    ∧ bits r.hw1 10 0 = bits d 11 1
    ∧ r.usedThunk = false := by
  dsimp only
  by_cases hT : S % 2 = 1
  · obtain ⟨w1, w2, w3, w4, w5, w6, w7, w8, w9, w10, w11, w12, w13⟩ :=
      wtb_spec hw0 hw1 (toU32 (toI64 (toU64 ((S : Int) + A - (P : Int)))))
    simp only [apply_thm_call, hreach, hT, Bool.false_eq_true, if_false, if_true]
    refine ⟨tb_or_of_right_true (by decide), w1, w2, w3, w4, w5, ?_, ?_, w6, w7,
            ?_, ?_, ?_, trivial⟩
    · rw [tb_or_of_right_false (by decide), w8]
    · rw [tb_or_of_right_false (by decide), w9]
    · rw [tb_or_of_right_false (by decide), w11]
    · rw [tb_or_of_right_false (by decide), w12]
    · rw [bits_or_high_10 (by decide), w13]
  · obtain ⟨w1, w2, w3, w4, w5, w6, w7, w8, w9, w10, w11, w12, w13⟩ :=
      wtb_spec hw0 hw1
        (align_to (toU64 (toI64 (toU64 ((S : Int) + A - (P : Int))))) 4 % 2 ^ 32)
    simp only [apply_thm_call, hreach, hT, Bool.false_eq_true, if_false, if_true]
    refine ⟨tb_and_of_right_false (by decide), w1, w2, w3, w4, w5, ?_, ?_, w6, w7,
            ?_, ?_, ?_, trivial⟩
    · rw [tb_and_of_right_true (by decide), w8]
    · rw [tb_and_of_right_true (by decide), w9]
    · rw [tb_and_of_right_true (by decide), w11]
    · rw [tb_and_of_right_true (by decide), w12]
    · rw [bits_and_low_10 (by decide), w13]

/-- Claim C1 witness: a reachable Thumb-target call at `S = 5`, `P = 0`,
`A = 0`. -/
theorem c1_thm_call_encoding_witness :
    is_jump_reachable (toI64 (toU64 ((5 : Int) + 0 - (0 : Int)))) = true
    ∧ (apply_thm_call 0 0 false 5 0 0 0).hw1.testBit 12 = decide ((5 : Nat) % 2 = 1)
    ∧ (apply_thm_call 0 0 false 5 0 0 0).usedThunk = false :=
  ⟨by decide,
   (c1_thm_call_encoding 0 0 5 0 0 0 (by decide)).1,
   (c1_thm_call_encoding 0 0 5 0 0 0 (by decide)).2.2.2.2.2.2.2.2.2.2.2.2.2⟩

/-- Claim C5: for every 64-bit unsigned value `x`,
`(ha(x) << 16) + sign_extend_16(lo(x))` equals `x` in 64-bit modular
arithmetic, with `ha(x) = (x + 0x8000) >> 16` and `lo(x) = x & 0xffff` as
defined in the PPC64 back-end. -/
theorem c5_ha_lo_roundtrip (x : Nat) (hx : x < 2 ^ 64) :
    ((((ha x <<< 16) % 2 ^ 64 : Nat) : Int) + sign_extend (lo x) 15) % (2 ^ 64)
      = (x : Int) := by
  have hlo : lo x = x % 2 ^ 16 := by
    have h := Nat.and_pow_two_sub_one_eq_mod x 16
    norm_num at h
    unfold lo
    norm_num
    exact h
  unfold ha sign_extend
  rw [hlo]
  simp only [Nat.shiftLeft_eq, Nat.shiftRight_eq_div_pow]
  split <;> (push_cast; omega)

/-- Claim C5 witness at `x = 0xdead8765`. -/
theorem c5_ha_lo_roundtrip_witness :
    (0xdead8765 : Nat) < 2 ^ 64
    ∧ ((((ha 0xdead8765 <<< 16) % 2 ^ 64 : Nat) : Int)
        + sign_extend (lo 0xdead8765) 15) % (2 ^ 64) = (0xdead8765 : Int) :=
  ⟨by decide, c5_ha_lo_roundtrip 0xdead8765 (by decide)⟩

/-- Claim C2: every slot of an ARM32 range-extension thunk holds the
two-entry-point stub (Thumb entry at offset 0, ARM entry at offset 4), and
the branch target computed by the ARM entry sequence (the literal at slot
offset 16 added to the pc value `P + 16`) equals the symbol's final address
`S`, mode bit included, in 32-bit arithmetic. -/
theorem c2_thunk_slot_target (sa off i S : Nat) :
    (arm32_thunk_slot sa off i S).take 16 =
      [0xfc, 0x46, 0x60, 0x47,
       0x04, 0xc0, 0x9f, 0xe5,
       0x0f, 0xc0, 0x8c, 0xe0,
       0x1c, 0xff, 0x2f, 0xe1]
    ∧ (arm32_thunk_slot sa off i S).length = 20
    ∧ (arm32_thunk_literal sa off i S + (arm32_thunk_slot_P sa off i + 16)) % 2 ^ 32
        = S % 2 ^ 32 := by
  refine ⟨rfl, rfl, ?_⟩
  unfold arm32_thunk_literal toU32
  omega

/-- Claim C3: an `R_PPC64_REL24` relocation whose symbol has a PLT entry
always takes its branch displacement from the range-extension thunk slot
(`thunk address + A - P`), never from the direct target, regardless of the
direct displacement's reach. -/
theorem c3_rel24_plt_always_thunk (insn next S P thunkAddr : Nat) (A : Int)
    (localEntry : Nat) :
    (ppc64_rel24 insn next true S P thunkAddr A localEntry).valUsed
        = toI64 (toU64 ((thunkAddr : Int) + A - (P : Int)))
    ∧ (ppc64_rel24 insn next true S P thunkAddr A localEntry).usedThunk = true
    ∧ (ppc64_rel24 insn next true S P thunkAddr A localEntry).word
        = insn ||| (bits (toU64 (ppc64_rel24 insn next true S P thunkAddr A
            localEntry).valUsed) 25 2 <<< 2) := by
  refine ⟨rfl, rfl, rfl⟩

/-- Claim C4: when `apply_reloc_alloc` processes an `R_PPC64_REL24`
relocation, the word following the site is replaced by
`0xe8410018` (`ld r2, 24(r1)`) exactly when the symbol has a PLT entry and
the word is `0x60000000` (nop); otherwise it is left unchanged. -/
theorem c4_rel24_nop_rewrite (insn next : Nat) (hasPlt : Bool)
    (S P thunkAddr : Nat) (A : Int) (localEntry : Nat) :
    (hasPlt = true → next = 0x60000000 →
      (ppc64_rel24 insn next hasPlt S P thunkAddr A localEntry).next = 0xe8410018)
    ∧ (next ≠ 0x60000000 →
      (ppc64_rel24 insn next hasPlt S P thunkAddr A localEntry).next = next)
    ∧ (hasPlt = false →
      (ppc64_rel24 insn next hasPlt S P thunkAddr A localEntry).next = next) := by
  refine ⟨?_, ?_, ?_⟩
  · intro h1 h2
    subst h1; subst h2
    simp [ppc64_rel24]
  · intro h
    simp [ppc64_rel24, h]
  · intro h
    subst h
    simp [ppc64_rel24]

/-- Claim C4 witness: the nop after a PLT call is rewritten; a non-nop word
and a non-PLT call-site are left unchanged. -/
theorem c4_rel24_nop_rewrite_witness :
    (ppc64_rel24 0 0x60000000 true 0 0 0 0 0).next = 0xe8410018
    ∧ (ppc64_rel24 0 5 true 0 0 0 0 0).next = 5
    ∧ (ppc64_rel24 0 0x60000000 false 0 0 0 0 0).next = 0x60000000 :=
  ⟨(c4_rel24_nop_rewrite 0 0x60000000 true 0 0 0 0 0).1 rfl rfl,
   (c4_rel24_nop_rewrite 0 5 true 0 0 0 0 0).2.1 (by decide),
   (c4_rel24_nop_rewrite 0 0x60000000 false 0 0 0 0 0).2.2 rfl⟩

/-- Claim C7 (amended): a relocation whose kind is not one of the known
types raises a diagnostic naming the section and relocation in both
`scan_relocations` and `apply_reloc_alloc`; it is the non-fatal `Error`
(recorded, the phase continues) on ARM32 and the link-aborting `Fatal` on
PPC64. -/
theorem c7_unknown_reloc_diag (n : Nat) :
    arm32_scan_diag (.unknown n) = .err
    ∧ arm32_apply_diag (.unknown n) = .err
    ∧ ppc64_scan_diag (.unknown n) = .fatal
    ∧ ppc64_apply_diag (.unknown n) = .fatal :=
  ⟨rfl, rfl, rfl, rfl⟩

/-- Claim C7 counterexample: on ARM32 an unknown relocation kind raises the
recording `Error` diagnostic, not the link-aborting `Fatal` the claim
states. -/
theorem c7_arm32_not_fatal :
    arm32_scan_diag (.unknown 4096) = Diag.err
    ∧ arm32_apply_diag (.unknown 4096) = Diag.err
    ∧ Diag.err ≠ Diag.fatal := by
  refine ⟨rfl, rfl, by decide⟩

/-- Claim C10: an `R_ARM_CALL` relocation whose instruction word is neither
BL (`(insn & 0xff000000) == 0xeb000000`) nor BLX
(`(insn & 0xfe000000) == 0xfa000000`) raises a fatal error before writing
anything, even if the symbol is remaining-undefined-weak or the target would
be reachable. -/
theorem c10_arm_call_fatal (insn : Nat) (undefWeak : Bool) (S P : Nat)
    (A : Int) (armTh : Nat)
    (h1 : insn &&& 0xff000000 ≠ 0xeb000000)
    (h2 : insn &&& 0xfe000000 ≠ 0xfa000000) :
    apply_arm_call insn undefWeak S P A armTh = ⟨.fatal, false⟩ := by
  unfold apply_arm_call
  simp [h1, h2]

/-- Claim C10 witness at a zero instruction word with an undefined-weak
symbol. -/
theorem c10_arm_call_fatal_witness :
    apply_arm_call 0 true 0 0 0 0 = ⟨ArmWrite.fatal, false⟩ :=
  c10_arm_call_fatal 0 true 0 0 0 0 (by decide) (by decide)

/-- Claim C8 counterexample: an `R_ARM_CALL` relocation against a
remaining-undefined-weak symbol at a site whose word is neither BL nor BLX
raises a fatal error rather than writing the canonical NOP. -/
theorem c8_counterexample :
    (apply_arm_call 0 true 0 0 0 0).w = ArmWrite.fatal
    ∧ (apply_arm_call 0 true 0 0 0 0).w ≠ ArmWrite.word 0xe320f000 := by
  refine ⟨rfl, by decide⟩

/-- Claim C8 (amended): a call-type relocation (`R_ARM_THM_CALL`,
`R_ARM_CALL`, `R_ARM_JUMP24`, `R_ARM_THM_JUMP24`) against a symbol that
remains undefined-weak is overwritten in place with the canonical NOP
(`0xe320f000` at ARM sites, `0x8000f3af` stored little-endian as half-words
`0xf3af`, `0x8000` at Thumb sites) with no thunk routing and no dependence
on the symbol or thunk addresses — except that an `R_ARM_CALL` site whose
word is neither BL nor BLX raises a fatal error first. -/
theorem c8_undef_weak_nop (hw0 hw1 insn S P : Nat) (A : Int)
    (armTh thumbTh : Nat) :
    apply_thm_call hw0 hw1 true S P A armTh = ⟨0xf3af, 0x8000, false⟩
    ∧ (insn &&& 0xff000000 = 0xeb000000 ∨ insn &&& 0xfe000000 = 0xfa000000 →
        apply_arm_call insn true S P A armTh = ⟨.word 0xe320f000, false⟩)
    ∧ apply_arm_jump24 insn true S P A armTh = ⟨.word 0xe320f000, false⟩
    ∧ apply_thm_jump24 hw0 hw1 true S P A thumbTh = ⟨.halves 0xf3af 0x8000, false⟩ := by
  refine ⟨rfl, ?_, rfl, rfl⟩
  intro hbl
  unfold apply_arm_call
  rcases hbl with h | h <;> simp [h]

/-- Claim C8 witness at a BL-encoded `R_ARM_CALL` site and a B-encoded
(`0xea`) `R_ARM_JUMP24` site. -/
theorem c8_undef_weak_nop_witness :
    apply_arm_call 0xeb000000 true 7 3 5 9 = ⟨ArmWrite.word 0xe320f000, false⟩
    ∧ apply_arm_jump24 0xea000000 true 7 3 5 9 = ⟨ArmWrite.word 0xe320f000, false⟩ :=
  ⟨(c8_undef_weak_nop 0 0 0xeb000000 7 3 5 9 11).2.1 (Or.inl (by decide)),
   (c8_undef_weak_nop 0 0 0xea000000 7 3 5 9 11).2.2.1⟩

/-- Claim C6 counterexample: on the two-entry `.ARM.exidx` table
`[(4, 1), (0x40000000, 1)]` (size 16, a multiple of 8), the post-pass leaves
the table unchanged, yet the second output entry's section-relative
reinterpretation (sign-extended `addr` plus byte offset) is smaller than the
first's, so the addr fields are not non-decreasing under that
interpretation. -/
theorem c6_exidx_counterexample :
    sort_arm_exidx [(4, 1), (0x40000000, 1)] = [(4, 1), (0x40000000, 1)]
    ∧ exidx_reinterp 8 (0x40000000, 1) < exidx_reinterp 0 (4, 1) := by
  exact ⟨by decide, by decide⟩

/-- Claim C6 (amended): after `sort_arm_exidx`, provided every translated
(section-relative) address lies in `[0, 2^30)` and the table has at most
`2^27` entries (`8 * length ≤ 2^30`), the output `addr` fields are
non-decreasing when reinterpreted as section-relative addresses
(self-relative 31-bit field sign-extended plus the entry's byte offset);
every output `addr` has bit 31 clear; and a value equal to `CANTUNWIND = 1`
or with the MSB set is never translated in either direction. -/
theorem c6_exidx_sorted (l : List (Nat × Nat))
    (hn : 8 * l.length ≤ 2 ^ 30)
    (hb : ∀ e ∈ exidx_map exidx_translate 0 l, e.1 < 2 ^ 30) :
    (∀ i j (hij : i < j) (hj : j < (sort_arm_exidx l).length),
       exidx_reinterp (8 * i) ((sort_arm_exidx l).get ⟨i, Nat.lt_trans hij hj⟩)
         ≤ exidx_reinterp (8 * j) ((sort_arm_exidx l).get ⟨j, hj⟩))
    ∧ (∀ e ∈ sort_arm_exidx l, e.1 < 2 ^ 31)
    ∧ (∀ off e, exidx_is_relative e.2 = false →
         (exidx_translate off e).2 = e.2 ∧ (exidx_untranslate off e).2 = e.2) := by
  have hperm := List.perm_insertionSort entryLE (exidx_map exidx_translate 0 l)
  have hsort := List.sorted_insertionSort entryLE (exidx_map exidx_translate 0 l)
  have hlen1 : (exidx_map exidx_translate 0 l).length = l.length :=
    exidx_map_length _ _ _
  have hlens :
      (List.insertionSort entryLE (exidx_map exidx_translate 0 l)).length
        = l.length := by
    rw [hperm.length_eq, hlen1]
  have hlen : (sort_arm_exidx l).length
      = (List.insertionSort entryLE (exidx_map exidx_translate 0 l)).length := by
    rw [sort_arm_exidx]
    exact exidx_map_length _ _ _
  have hbs : ∀ e ∈ List.insertionSort entryLE (exidx_map exidx_translate 0 l),
      e.1 < 2 ^ 30 := fun e he => hb e (hperm.mem_iff.mp he)
  refine ⟨?_, ?_, ?_⟩
  · intro i j hij hj
    have hj' : j < (List.insertionSort entryLE (exidx_map exidx_translate 0 l)).length := by
      rw [← hlen]
      exact hj
    have hi' : i < (List.insertionSort entryLE (exidx_map exidx_translate 0 l)).length :=
      Nat.lt_trans hij hj'
    have hgi : (sort_arm_exidx l).get ⟨i, Nat.lt_trans hij hj⟩
        = exidx_untranslate (0 + 8 * i)
            ((List.insertionSort entryLE (exidx_map exidx_translate 0 l)).get ⟨i, hi'⟩) :=
      exidx_map_get _ _ 0 i _ hi'
    have hgj : (sort_arm_exidx l).get ⟨j, hj⟩
        = exidx_untranslate (0 + 8 * j)
            ((List.insertionSort entryLE (exidx_map exidx_translate 0 l)).get ⟨j, hj'⟩) :=
      exidx_map_get _ _ 0 j _ hj'
    rw [hgi, hgj, Nat.zero_add, Nat.zero_add]
    rw [exidx_untranslate_reinterp i _ (hbs _ (List.get_mem _ _ _)) (by omega),
        exidx_untranslate_reinterp j _ (hbs _ (List.get_mem _ _ _)) (by omega)]
    have hrel := List.Sorted.rel_get_of_lt hsort
      (show (⟨i, hi'⟩ : Fin _) < ⟨j, hj'⟩ from hij)
    unfold entryLE at hrel
    exact_mod_cast hrel
  · rw [sort_arm_exidx]
    exact exidx_untranslate_mem_addr_lt _ 0
  · intro off e h
    exact ⟨by simp [exidx_translate, h], by simp [exidx_untranslate, h]⟩

/-- Claim C6 witness on the one-entry table `[(0, 1)]`. -/
theorem c6_exidx_sorted_witness :
    8 * ([((0 : Nat), (1 : Nat))].length) ≤ 2 ^ 30
    ∧ ∀ e ∈ sort_arm_exidx [((0 : Nat), (1 : Nat))], e.1 < 2 ^ 31 :=
  ⟨by decide,
   (c6_exidx_sorted [((0 : Nat), (1 : Nat))] (by decide) (by decide)).2.1⟩

/-- Claim C9 counterexample: the `R_PPC64_ADDR32` case of
`apply_reloc_nonalloc` writes `S + A` even when a tombstone value is
present, so the tombstone does not replace the bytes for this accepted
absolute kind. -/
theorem c9_counterexample :
    (ppc64_apply_nonalloc PpcRel.addr32 (some 0xdeadbeef) 5 0 0 0).1
        = NonallocRes.w32 5
    ∧ NonallocRes.w32 5 ≠ NonallocRes.w32 0xdeadbeef := by
  refine ⟨by decide, by decide⟩

/-- Claim C9 (amended): `apply_reloc_nonalloc` accepts only `R_ARM_ABS32`
and `R_ARM_TLS_LDO32` on ARM32 and `R_PPC64_ADDR64`, `R_PPC64_ADDR32` and
`R_PPC64_DTPREL64` on PPC64 (besides skipping `R_NONE`); any other kind is a
fatal error. A present tombstone replaces the bytes for `R_ARM_ABS32`,
`R_ARM_TLS_LDO32` and `R_PPC64_ADDR64`, while `R_PPC64_ADDR32` and
`R_PPC64_DTPREL64` ignore the tombstone and always write the computed
value. -/
theorem c9_nonalloc_kinds (tomb : Option Nat) (v S tlsBegin dtv : Nat) (A : Int) :
    arm32_apply_nonalloc .rnone tomb S tlsBegin A = .skip
    ∧ arm32_apply_nonalloc .abs32 (some v) S tlsBegin A = .w32 (v % 2 ^ 32)
    ∧ arm32_apply_nonalloc .abs32 none S tlsBegin A
        = .w32 (toU64 ((S : Int) + A) % 2 ^ 32)
    ∧ arm32_apply_nonalloc .tls_ldo32 (some v) S tlsBegin A = .w32 (v % 2 ^ 32)
    ∧ arm32_apply_nonalloc .tls_ldo32 none S tlsBegin A
        = .w32 (toU64 ((S : Int) + A - (tlsBegin : Int)) % 2 ^ 32)
    ∧ (∀ r : ArmRel, r ≠ .rnone → r ≠ .abs32 → r ≠ .tls_ldo32 →
        arm32_apply_nonalloc r tomb S tlsBegin A = .fatal)
    ∧ ppc64_apply_nonalloc .rnone tomb S tlsBegin dtv A = (.skip, false)
    ∧ ppc64_apply_nonalloc .addr64 (some v) S tlsBegin dtv A
        = (.w64 (v % 2 ^ 64), false)
    ∧ ppc64_apply_nonalloc .addr64 none S tlsBegin dtv A
        = (.w64 (toU64 ((S : Int) + A)), false)
    ∧ (ppc64_apply_nonalloc .addr32 tomb S tlsBegin dtv A).1
        = .w32 (toU32 (toI64 (toU64 ((S : Int) + A))))
    ∧ (ppc64_apply_nonalloc .dtprel64 tomb S tlsBegin dtv A).1
        = .w64 (toU64 ((S : Int) + A - (tlsBegin : Int) - (dtv : Int)))
    ∧ (∀ r : PpcRel, r ≠ .rnone → r ≠ .addr64 → r ≠ .addr32 → r ≠ .dtprel64 →
        ppc64_apply_nonalloc r tomb S tlsBegin dtv A = (.fatal, false)) := by
  refine ⟨rfl, rfl, rfl, rfl, rfl, ?_, rfl, rfl, rfl, rfl, rfl, ?_⟩
  · intro r h1 h2 h3
    cases r <;> simp_all [arm32_apply_nonalloc]
  · intro r h1 h2 h3 h4
    cases r <;> simp_all [ppc64_apply_nonalloc]

/-- Claim C9 witness: an alloc-only relocation kind is fatal in
`apply_reloc_nonalloc` on both architectures. -/
theorem c9_nonalloc_kinds_witness :
    arm32_apply_nonalloc ArmRel.call none 0 0 0 = NonallocRes.fatal
    ∧ ppc64_apply_nonalloc PpcRel.rel24 none 0 0 0 0 = (NonallocRes.fatal, false) :=
  ⟨(c9_nonalloc_kinds none 0 0 0 0 0).2.2.2.2.2.1 ArmRel.call
      (by decide) (by decide) (by decide),
   (c9_nonalloc_kinds none 0 0 0 0 0).2.2.2.2.2.2.2.2.2.2.2 PpcRel.rel24
      (by decide) (by decide) (by decide) (by decide)⟩

end Mold
